import Mathlib

/-!
Shallow embedding of gitdeath/device-mapping-manager (main.go) and of the
spec-mandated cgroup rule-application backend, with theorems checking the
specification's claims against it.

Conventions:
* Filesystem metadata (`unix.Stat_t`) is a structure of mode bits and the raw
  device identifier; the filesystem visible to `unix.Stat` is a partial map
  from path strings to such metadata (`none` models a stat error).
* Fallible Go functions returning `(..., error)` become `Except`.
* The Docker/cgroup collaborators (inspection results, version detection,
  `cgroup.New`, `GetDeviceCGroupMountPath`) are inputs in a `ContainerEnv`
  record, since their implementations live outside main.go; main.go's control
  flow over those results is embedded faithfully, producing a trace of events.
-/

namespace DMM

/-- Plugin id constant from main.go (`const pluginId = "dvd"`). -/
def pluginId : String := "dvd"

/-- Host root prefix constant from main.go (`const rootPath = "/host"`). -/
def rootPath : String := "/host"

/-! ### File mode type bits (linux, as exposed by golang.org/x/sys/unix) -/

def S_IFMT : Nat := 0xf000
def S_IFBLK : Nat := 0x6000
def S_IFCHR : Nat := 0x2000
def S_IFREG : Nat := 0x8000
def S_IFDIR : Nat := 0x4000
def S_IFLNK : Nat := 0xa000
def S_IFSOCK : Nat := 0xc000
def S_IFIFO : Nat := 0x1000

/-- Metadata returned by `unix.Stat`: the file mode and the raw device
identifier (`Rdev`). Only the fields main.go reads are embedded. -/
structure Stat_t where
  mode : Nat
  rdev : Nat
deriving Repr, DecidableEq

/-- Extraction of the major device number from a raw linux device identifier,
as implemented by `unix.Major` in golang.org/x/sys/unix (dev_mkdev_linux). -/
def Major (dev : Nat) : Nat :=
  ((dev &&& 0x00000000000fff00) >>> 8) ||| ((dev &&& 0xfffff00000000000) >>> 32)

/-- Extraction of the minor device number from a raw linux device identifier,
as implemented by `unix.Minor` in golang.org/x/sys/unix. -/
def Minor (dev : Nat) : Nat :=
  (dev &&& 0x00000000000000ff) ||| ((dev &&& 0x00000ffffff00000) >>> 12)

/-- The filesystem as seen by `unix.Stat`: `none` models a failing stat. -/
def FileSystem : Type := String → Option Stat_t

/-- Errors surfaced by `getDeviceInfo` (main.go:109-135): a failing stat, or a
path that is neither a character nor a block device. -/
inductive DevError where
  | statFailed
  | unsupportedDeviceType
deriving Repr, DecidableEq

/-- Embedding of `getDeviceInfo` (main.go:109-135): stat the path; classify by
the mode's type bits (`S_IFBLK` to `"b"`, `S_IFCHR` to `"c"`, anything else is
an error); extract major/minor from `Rdev` with `unix.Major`/`unix.Minor`. -/
def getDeviceInfo (fs : FileSystem) (devicePath : String) :
    Except DevError (String × Int × Int) :=
  match fs devicePath with
  | none => .error .statFailed
  | some stat =>
    if stat.mode &&& S_IFMT = S_IFBLK then
      .ok ("b", (Major stat.rdev : Int), (Minor stat.rdev : Int))
    else if stat.mode &&& S_IFMT = S_IFCHR then
      .ok ("c", (Major stat.rdev : Int), (Minor stat.rdev : Int))
    else
      .error .unsupportedDeviceType

/-- Embedding of `cgroup.DeviceRule` as used by main.go:244-252: access string,
optional (pointer-typed in Go, so `none` models nil) major/minor numbers, the
device type string, and the allow flag. The Go field `Type` is spelled `Type'`
because `Type` is reserved in Lean. -/
structure DeviceRule where
  Access : String
  Major : Option Int
  Minor : Option Int
  Type' : String
  Allow : Bool
deriving Repr, DecidableEq

/-- Embedding of `applyDeviceRules` (main.go:236-261) up to the backend call:
resolve the device identity of `mountPath` and, on success, return the
single-element rule list that is handed to `api.AddDeviceRules`. -/
def applyDeviceRules (fs : FileSystem) (mountPath : String) :
    Except DevError (List DeviceRule) :=
  match getDeviceInfo fs mountPath with
  | .error e => .error e
  | .ok (deviceType, major, minor) =>
    .ok [{ Access := "rwm", Major := some major, Minor := some minor,
           Type' := deviceType, Allow := true }]

deriving instance DecidableEq for Except

/-! ### The rule-application backend state (spec §4.4) -/

/-- Modelled from the spec: the Device Rule Applier's per-cgroup-path record of
effective allow rules. The implementation (`internal/cgroup`, the
`api.AddDeviceRules` backend) is not under src/; spec §4.4 mandates strategy
(a): "the applier keeps process-local state keyed by cgroup path listing all
rules ever applied to that path in this daemon's lifetime, and every attach
operation re-derives and installs the full union". The state maps each cgroup
path to the set of rules of the installed program (V2) / the kernel's additive,
deduplicating allow-list (V1). -/
def RuleRecord : Type := String → Finset DeviceRule

/-- Modelled from the spec: one `AddDeviceRules` call on cgroup path
`cgroupPath` unions the new rules into that path's accumulated record and
installs the full union, leaving every other path untouched (spec §4.4). -/
def addDeviceRules (st : RuleRecord) (cgroupPath : String)
    (rules : List DeviceRule) : RuleRecord :=
  fun p => if p = cgroupPath then st p ∪ rules.toFinset else st p

/-- The effective allow-set at a cgroup path: the rules encoded by the
installed program / allow-list at that path. -/
def installedRules (st : RuleRecord) (p : String) : Finset DeviceRule := st p

/-- Sequencing of `AddDeviceRules` calls: each list element is one call,
pairing a cgroup path with the rules passed for it. -/
def applyAll (st : RuleRecord) : List (String × List DeviceRule) → RuleRecord
  | [] => st
  | (q, rs) :: rest => applyAll (addDeviceRules st q rs) rest

/-- All rules ever applied to cgroup path `p` by a sequence of calls. -/
def rulesEverApplied (p : String) :
    List (String × List DeviceRule) → Finset DeviceRule
  | [] => ∅
  | (q, rs) :: rest =>
    (if q = p then rs.toFinset else ∅) ∪ rulesEverApplied p rest

/-- Iteration of a state transformer, for idempotence statements. -/
def iterApply (f : RuleRecord → RuleRecord) : Nat → RuleRecord → RuleRecord
  | 0, st => st
  | n + 1, st => f (iterApply f n st)

/-- Embedding of `applyDeviceRules` (main.go:236-261) including the backend
call: resolve the device and, on success, hand the single rule to the
(spec-modelled) `AddDeviceRules`; on failure the state is unchanged. -/
def applyDeviceRulesState (fs : FileSystem) (mountPath cgroupPath : String)
    (st : RuleRecord) : RuleRecord :=
  match applyDeviceRules fs mountPath with
  | .error _ => st
  | .ok rules => addDeviceRules st cgroupPath rules

/-! ### String prefix and slash-splitting helpers

`String.isPrefixOf` and `String.splitOn` from core use well-founded recursion
over byte positions, which does not evaluate inside the kernel; the same
operations are therefore defined structurally over the underlying character
lists. -/

/-- Embedding of Go's `strings.HasPrefix s pre`: `pre` is a string prefix of
`s`. -/
def hasPrefixStr (s pre : String) : Bool := pre.data.isPrefixOf s.data

/-- Splitting of a character list at every slash (the segments of a path, as
Go's `strings.Split(p, "/")` / the byte loop inside `path.Clean` see them). -/
def splitSlash : List Char → List (List Char)
  | [] => [[]]
  | c :: rest =>
    if c = '/' then [] :: splitSlash rest
    else
      match splitSlash rest with
      | [] => [[c]]
      | h :: t => (c :: h) :: t

/-- The slash-separated segments of a path string. -/
def slashSegs (p : String) : List String := (splitSlash p.data).map fun cs => ⟨cs⟩

/-! ### Go path.Clean / path.Join (used by main.go:190) -/

/-- One step of Go's `path.Clean` over a path segment: empty and `.` segments
are dropped; `..` pops the last real segment, is ignored at the root of a
rooted path, and accumulates at the front of a relative path; any other
segment is appended. -/
def cleanStep (rooted : Bool) (acc : List String) (seg : String) : List String :=
  if seg = "" ∨ seg = "." then acc
  else if seg = ".." then
    match acc.getLast? with
    | some s => if s = ".." then acc ++ [".."] else acc.dropLast
    | none => if rooted then [] else [".."]
  else acc ++ [seg]

/-- Embedding of Go's `path.Clean`: lexical cleaning of a slash-separated
path. -/
def goClean (p : String) : String :=
  if p = "" then "."
  else
    let rooted := hasPrefixStr p "/"
    let segs := (slashSegs p).foldl (cleanStep rooted) []
    if rooted then
      if segs.isEmpty then "/" else "/" ++ String.intercalate "/" segs
    else
      if segs.isEmpty then "." else String.intercalate "/" segs

/-- Embedding of Go's `path.Join`: concatenate the elements with slashes
(skipping leading empty elements) and clean the result; all-empty input gives
the empty string. -/
def goPathJoin (elems : List String) : String :=
  if elems.all (· = "") then ""
  else goClean (String.intercalate "/" (elems.dropWhile (· = "")))

/-! ### Filesystem trees and filepath.Walk (main.go:194-218) -/

mutual

/-- A node of the host filesystem as seen by `os.Stat` / `filepath.Walk`: a
non-directory file with its metadata, or a directory with named children (in
the lexical order `filepath.Walk` uses). -/
inductive FsNode where
  | file (stat : Stat_t)
  | dir (entries : FsEntries)
deriving Repr, DecidableEq

/-- The named children of a directory. -/
inductive FsEntries where
  | nil
  | cons (name : String) (node : FsNode) (rest : FsEntries)
deriving Repr, DecidableEq

end

mutual

/-- The visit sequence of Go's `filepath.Walk` rooted at path `p` over node
`n`: each visited path paired with its `IsDir` flag, root first, children in
order. -/
def walkVisit : String → FsNode → List (String × Bool)
  | p, .file _ => [(p, false)]
  | p, .dir es => (p, true) :: walkVisitEntries p es

/-- Visit sequence of the children of a directory at path `p`. -/
def walkVisitEntries : String → FsEntries → List (String × Bool)
  | _, .nil => []
  | p, .cons name child rest =>
    walkVisit (p ++ "/" ++ name) child ++ walkVisitEntries p rest

end

/-- The paths handed to `applyDeviceRules` for one mount source (main.go:
194-218): if the source stats to a directory, `filepath.Walk` it and the walk
callback skips every directory (`info.IsDir()`) and calls `applyDeviceRules`
on every other visited path; a non-directory source is handed over directly. -/
def mountApplyPaths (source : String) (node : FsNode) : List String :=
  match node with
  | .file _ => [source]
  | .dir _ =>
    ((walkVisit source node).filter fun v => !v.2).map Prod.fst

/-! ### The reconciliation loop (main.go:137-234) -/

/-- One mount of a container, as reported by `ContainerInspect`
(`mount.Source`, `mount.Destination`). -/
structure MountPoint where
  Source : String
  Destination : String
deriving Repr, DecidableEq

/-- The backend object returned by `cgroup.New(version)`. Its implementation
is outside main.go; only its identity matters to the embedded control flow. -/
structure Api where
  version : Nat
deriving Repr, DecidableEq

/-- The collaborator results one `processContainer` run depends on: the
inspection outcome (`false` models an inspect error), the container's pid and
mounts, and the behaviour of the cgroup backend calls made by main.go. -/
structure ContainerEnv where
  inspectOk : Bool
  pid : Int
  mounts : List MountPoint
  getVersion : String → Int → Except String Nat
  cgroupNew : Nat → Api × Option String
  getMountPath : Api → String → Int → Except String (String × String)
  statTree : String → Option FsNode

/-- Observable events of one reconciliation pass over a container's mounts. -/
inductive Event where
  | versionError (err : String)
  | skippedNonDevice (source : String)
  | cgroupPathError (err : String)
  | statError (source : String)
  | applied (devicePath : String) (cgroupPath : String)
deriving Repr, DecidableEq

/-- Embedding of the mount loop of `processContainer` (main.go:171-219):
skip sources without the string prefix `/dev`; call `cgroup.New` (its error is
bound and immediately shadowed, mirroring main.go:182-183) and
`GetDeviceCGroupMountPath(\"/\", pid)`; on a path-resolution error log and
`break` out of the loop; otherwise join the returned paths under `rootPath`,
stat the source (`continue` on error), and hand the source — walked
recursively if a directory — to `applyDeviceRules` with the joined cgroup
path. -/
def processMounts (env : ContainerEnv) (version : Nat) :
    List MountPoint → List Event
  | [] => []
  | m :: rest =>
    if !hasPrefixStr m.Source "/dev" then
      Event.skippedNonDevice m.Source :: processMounts env version rest
    else
      match env.getMountPath (env.cgroupNew version).1 "/" env.pid with
      | .error e => [Event.cgroupPathError e]
      | .ok (cgPath, sysfsPath) =>
        match env.statTree m.Source with
        | none => Event.statError m.Source :: processMounts env version rest
        | some node =>
          ((mountApplyPaths m.Source node).map fun p =>
              Event.applied p (goPathJoin [rootPath, sysfsPath, cgPath]))
            ++ processMounts env version rest

/-- The events of one `processContainer` run after a successful inspection
(main.go:159-169): detect the version with `GetDeviceCGroupVersion(\"/\", pid)`,
return after logging on error, otherwise run the mount loop. -/
def containerEvents (env : ContainerEnv) : List Event :=
  match env.getVersion "/" env.pid with
  | .error e => [Event.versionError e]
  | .ok version => processMounts env version env.mounts

/-- Outcome of `processContainer` (main.go:153-221): a panic when
`ContainerInspect` fails (main.go:157), otherwise the events of the pass. -/
inductive Outcome where
  | panicked
  | completed (events : List Event)
deriving Repr, DecidableEq

/-- Embedding of `processContainer` (main.go:153-221). -/
def processContainer (env : ContainerEnv) : Outcome :=
  if env.inspectOk then .completed (containerEvents env) else .panicked

/-- Embedding of `checkExistingContainers` (main.go:223-234): process each
listed container in order; a panic aborts the whole run (first component: the
per-container event lists produced before any abort; second: whether the
process died). -/
def checkExistingContainers : List ContainerEnv → List (List Event) × Bool
  | [] => ([], false)
  | env :: rest =>
    match processContainer env with
    | .panicked => ([], true)
    | .completed evs =>
      let r := checkExistingContainers rest
      (evs :: r.1, r.2)

/-- One item delivered by the runtime event stream subscribed to in
`listenForMounts`: an error on the `errs` channel, or a container-start
message (identified here by the inspection environment its id resolves to). -/
inductive StreamItem where
  | streamErr (err : String)
  | startEvent (env : ContainerEnv)

/-- Embedding of `listenForMounts` (main.go:137-151): process stream items in
order; an error on the error channel is `log.Fatal` (the daemon dies), a
panic inside `processContainer` also kills the daemon; otherwise collect each
event's trace. -/
def listenForMounts : List StreamItem → List (List Event) × Bool
  | [] => ([], false)
  | .streamErr _ :: _ => ([], true)
  | .startEvent env :: rest =>
    match processContainer env with
    | .panicked => ([], true)
    | .completed evs =>
      let r := listenForMounts rest
      (evs :: r.1, r.2)

/-! ### Concrete instances used by witnesses and counterexamples -/

/-- Metadata of the character device `c 4:0` (mode `S_IFCHR ||| 0o620`, raw
device identifier `0x400`). -/
def ttyStat : Stat_t := { mode := 0x2190, rdev := 0x400 }

/-- A filesystem exposing the single character device `/dev/tty0`. -/
def fs0 : FileSystem :=
  fun p => if p = "/dev/tty0" then some ttyStat else none

/-- A container whose single mount is the device file `/dev/tty0`, with a V2
cgroup and successful collaborator calls. -/
def envA : ContainerEnv where
  inspectOk := true
  pid := 42
  mounts := [{ Source := "/dev/tty0", Destination := "/dev/tty0" }]
  getVersion := fun _ _ => .ok 2
  cgroupNew := fun v => ({ version := v }, none)
  getMountPath := fun _ _ _ => .ok ("/system.slice/docker-abc.scope", "/sys/fs/cgroup")
  statTree := fun p => if p = "/dev/tty0" then some (.file ttyStat) else none

/-- A container with a device mount and a data mount whose
`GetDeviceCGroupMountPath` call fails with `eperm`. -/
def envB : ContainerEnv where
  inspectOk := true
  pid := 43
  mounts := [{ Source := "/dev/tty0", Destination := "/dev/tty0" },
             { Source := "/data", Destination := "/data" }]
  getVersion := fun _ _ => .ok 2
  cgroupNew := fun v => ({ version := v }, none)
  getMountPath := fun _ _ _ => .error "eperm"
  statTree := fun p => if p = "/dev/tty0" then some (.file ttyStat) else none

/-- A container whose single mount source `/devices/input0` starts with the
string `/dev` without lying under the `/dev` directory. -/
def envC : ContainerEnv where
  inspectOk := true
  pid := 44
  mounts := [{ Source := "/devices/input0", Destination := "/devices/input0" }]
  getVersion := fun _ _ => .ok 2
  cgroupNew := fun v => ({ version := v }, none)
  getMountPath := fun _ _ _ => .ok ("/system.slice/docker-abc.scope", "/sys/fs/cgroup")
  statTree := fun p => if p = "/devices/input0" then some (.file ttyStat) else none

/-- A container whose inspection fails. -/
def envD : ContainerEnv where
  inspectOk := false
  pid := 45
  mounts := []
  getVersion := fun _ _ => .ok 2
  cgroupNew := fun v => ({ version := v }, none)
  getMountPath := fun _ _ _ => .ok ("/system.slice/docker-abc.scope", "/sys/fs/cgroup")
  statTree := fun _ => none

/-- The children of the `/dev/dri`-like directory tree below. -/
def driEntries : FsEntries :=
  .cons "by-path" (.dir (.cons "pci-1" (.file ttyStat) .nil))
    (.cons "card0" (.file ttyStat) (.cons "renderD128" (.file ttyStat) .nil))

/-- A directory tree like `/dev/dri`: two device files and a subdirectory
holding a third. -/
def driTree : FsNode := .dir driEntries

/-- The allow rule for the character device `c 226:0`. -/
def ruleA : DeviceRule :=
  { Access := "rwm", Major := some 226, Minor := some 0, Type' := "c", Allow := true }

/-- The allow rule for the character device `c 4:0`. -/
def ruleB : DeviceRule :=
  { Access := "rwm", Major := some 4, Minor := some 0, Type' := "c", Allow := true }

/-- A backend state in which one cgroup path already allows `ruleA`. -/
def stA : RuleRecord :=
  fun p => if p = "/host/sys/fs/cgroup/system.slice/docker-abc.scope" then {ruleA} else ∅

/-- Formalisation of the spec's wording for a source "under the device-file
namespace (/dev)": the path is `/dev` itself or lies below the `/dev`
directory. The code instead tests the raw string prefix `/dev`
(main.go:177). -/
def liesUnderDev (s : String) : Bool := s == "/dev" || hasPrefixStr s "/dev/"

/-! ## Helper lemmas -/

theorem addDeviceRules_at (st : RuleRecord) (q : String) (rs : List DeviceRule)
    (p : String) :
    addDeviceRules st q rs p = if p = q then st p ∪ rs.toFinset else st p := rfl

theorem applyAll_at (ops : List (String × List DeviceRule)) :
    ∀ (st : RuleRecord) (p : String),
      applyAll st ops p = st p ∪ rulesEverApplied p ops := by
  induction ops with
  | nil => intro st p; simp [applyAll, rulesEverApplied]
  | cons op rest ih =>
    intro st p
    obtain ⟨q, rs⟩ := op
    rw [applyAll, ih, rulesEverApplied, addDeviceRules_at]
    by_cases hpq : p = q
    · simp [hpq, Finset.union_assoc]
    · rw [if_neg hpq, if_neg (Ne.symm hpq), Finset.empty_union]

theorem addDeviceRules_idem (st : RuleRecord) (q : String) (rs : List DeviceRule) :
    addDeviceRules (addDeviceRules st q rs) q rs = addDeviceRules st q rs := by
  funext p
  simp only [addDeviceRules_at]
  by_cases hpq : p = q
  · simp [hpq, Finset.union_assoc]
  · simp [hpq]

theorem applyDeviceRulesState_idem (fs : FileSystem) (mp cp : String)
    (st : RuleRecord) :
    applyDeviceRulesState fs mp cp (applyDeviceRulesState fs mp cp st)
      = applyDeviceRulesState fs mp cp st := by
  unfold applyDeviceRulesState
  cases applyDeviceRules fs mp with
  | error e => rfl
  | ok rules => exact addDeviceRules_idem st cp rules

theorem iterApply_of_idem (f : RuleRecord → RuleRecord)
    (hf : ∀ st, f (f st) = f st) :
    ∀ (n : Nat) (st : RuleRecord), iterApply f (n + 1) st = f st := by
  intro n
  induction n with
  | zero => intro st; rfl
  | succ k ih =>
    intro st
    calc iterApply f (k + 2) st = f (iterApply f (k + 1) st) := rfl
      _ = f (f st) := by rw [ih]
      _ = f st := hf st

/-! ## Claims C1 and C2 -/

/-- C1: under the Device Rule Applier's actions the effective allow-set of
every cgroup path is monotonically non-decreasing — a rule already allowed at
a path survives any further sequence of `AddDeviceRules` calls — and each
attach to a path installs the union of the previously effective rules with all
rules ever applied to that path, never the newest rule in isolation. -/
theorem C1_attach_installs_union :
    (∀ (st : RuleRecord) (ops : List (String × List DeviceRule)) (p : String)
        (r : DeviceRule),
        r ∈ installedRules st p → r ∈ installedRules (applyAll st ops) p)
    ∧ ∀ (st : RuleRecord) (ops : List (String × List DeviceRule)) (p : String),
        installedRules (applyAll st ops) p
          = installedRules st p ∪ rulesEverApplied p ops := by
  constructor
  · intro st ops p r hr
    show r ∈ applyAll st ops p
    rw [applyAll_at]
    exact Finset.mem_union_left _ hr
  · intro st ops p
    exact applyAll_at ops st p

/-- C1 witness: a path that already allows `ruleA` still allows it after a
rule for a different device is applied to it. -/
theorem C1_witness :
    ruleA ∈ installedRules
      (applyAll stA [("/host/sys/fs/cgroup/system.slice/docker-abc.scope", [ruleB])])
      "/host/sys/fs/cgroup/system.slice/docker-abc.scope" :=
  C1_attach_installs_union.1 stA
    [("/host/sys/fs/cgroup/system.slice/docker-abc.scope", [ruleB])]
    "/host/sys/fs/cgroup/system.slice/docker-abc.scope" ruleA (by decide)

/-- C2: applying the same `DeviceRule` to the same cgroup target N ≥ 1 times
yields the same backend state as applying it once, both for a bare
`AddDeviceRules` call and for the full `applyDeviceRules` pipeline of
main.go:236-261, so re-running reconciliation over an already-processed
container leaves observable cgroup state unchanged. -/
theorem C2_idempotent_application (st : RuleRecord) (p : String) (r : DeviceRule)
    (fs : FileSystem) (mp : String) (N : Nat) (hN : 1 ≤ N) :
    iterApply (fun s => addDeviceRules s p [r]) N st = addDeviceRules st p [r]
    ∧ iterApply (applyDeviceRulesState fs mp p) N st
        = applyDeviceRulesState fs mp p st := by
  obtain ⟨n, rfl⟩ : ∃ n, N = n + 1 := by
    cases N with
    | zero => exact absurd hN (by decide)
    | succ k => exact ⟨k, rfl⟩
  constructor
  · exact iterApply_of_idem _ (fun s => addDeviceRules_idem s p [r]) n st
  · exact iterApply_of_idem _ (applyDeviceRulesState_idem fs mp p) n st

/-- C2 witness: three applications of the same rule to the same cgroup path
equal one application. -/
theorem C2_witness :
    (1 : Nat) ≤ 3
    ∧ iterApply (fun s => addDeviceRules s "/host/sys/fs/cgroup/a" [ruleB]) 3 stA
        = addDeviceRules stA "/host/sys/fs/cgroup/a" [ruleB] :=
  ⟨by decide,
    (C2_idempotent_application stA "/host/sys/fs/cgroup/a" ruleB fs0 "/dev/tty0" 3
      (by decide)).1⟩

/-! ## Claim C3 -/

/-- C3: for every path whose metadata carries character-device type bits the
resolver returns the char kind `"c"` with the major/minor numbers extracted
from the raw device identifier; block-device type bits yield `"b"` likewise;
and every other file type (regular file, directory, symlink, socket, FIFO)
yields the not-a-device error. -/
theorem C3_device_identity_resolver (fs : FileSystem) (p : String) (st : Stat_t)
    (h : fs p = some st) :
    (st.mode &&& S_IFMT = S_IFCHR →
        getDeviceInfo fs p
          = .ok ("c", (Major st.rdev : Int), (Minor st.rdev : Int)))
    ∧ (st.mode &&& S_IFMT = S_IFBLK →
        getDeviceInfo fs p
          = .ok ("b", (Major st.rdev : Int), (Minor st.rdev : Int)))
    ∧ (st.mode &&& S_IFMT ∈ ([S_IFREG, S_IFDIR, S_IFLNK, S_IFSOCK, S_IFIFO] : List Nat) →
        getDeviceInfo fs p = .error DevError.unsupportedDeviceType) := by
  refine ⟨?_, ?_, ?_⟩
  · intro hm
    have hb : ¬ st.mode &&& S_IFMT = S_IFBLK := by rw [hm]; decide
    simp [getDeviceInfo, h, hm, hb]
    decide
  · intro hm
    simp [getDeviceInfo, h, hm]
  · intro hm
    simp only [List.mem_cons, List.not_mem_nil, or_false] at hm
    rcases hm with hm | hm | hm | hm | hm <;>
      · have hb : ¬ st.mode &&& S_IFMT = S_IFBLK := by rw [hm]; decide
        have hc : ¬ st.mode &&& S_IFMT = S_IFCHR := by rw [hm]; decide
        simp [getDeviceInfo, h, hb, hc]

/-- C3 witness: the character device `/dev/tty0` (`c 4:0`) resolves to the
char kind with major 4 and minor 0. -/
theorem C3_witness :
    ttyStat.mode &&& S_IFMT = S_IFCHR
    ∧ getDeviceInfo fs0 "/dev/tty0"
        = .ok ("c", (Major ttyStat.rdev : Int), (Minor ttyStat.rdev : Int)) :=
  ⟨by decide, (C3_device_identity_resolver fs0 "/dev/tty0" ttyStat rfl).1 (by decide)⟩

/-! ## Claim C9 -/

/-- C9: whenever `applyDeviceRules` reaches the cgroup backend, the rule list
it hands over is a single-element list whose only rule has access `"rwm"`,
`Allow = true`, and non-nil major/minor pointers equal to the resolved
device's numbers. -/
theorem C9_single_rwm_allow_rule (fs : FileSystem) (p : String)
    (rules : List DeviceRule) (h : applyDeviceRules fs p = .ok rules) :
    ∃ t M N, getDeviceInfo fs p = .ok (t, M, N)
      ∧ rules = [{ Access := "rwm", Major := some M, Minor := some N,
                   Type' := t, Allow := true }] := by
  unfold applyDeviceRules at h
  cases hg : getDeviceInfo fs p with
  | error e => rw [hg] at h; exact absurd h (by simp)
  | ok v =>
    obtain ⟨t, M, N⟩ := v
    rw [hg] at h
    simp only [Except.ok.injEq] at h
    exact ⟨t, M, N, rfl, h.symm⟩

/-- C9 witness: for `/dev/tty0` the backend receives exactly the single allow
rule `c 4:0 rwm`. -/
theorem C9_witness :
    ∃ t M N, getDeviceInfo fs0 "/dev/tty0" = .ok (t, M, N)
      ∧ ([{ Access := "rwm", Major := some (4 : Int), Minor := some (0 : Int),
            Type' := "c", Allow := true }] : List DeviceRule)
        = [{ Access := "rwm", Major := some M, Minor := some N,
             Type' := t, Allow := true }] :=
  C9_single_rwm_allow_rule fs0 "/dev/tty0"
    [{ Access := "rwm", Major := some 4, Minor := some 0,
       Type' := "c", Allow := true }] (by decide)

/-! ## Prefix and walk lemmas -/

theorem hasPrefixStr_iff (s pre : String) :
    hasPrefixStr s pre = true ↔ pre.data <+: s.data := by
  unfold hasPrefixStr
  exact List.isPrefixOf_iff_prefix

theorem hasPrefixStr_self (s : String) : hasPrefixStr s s = true :=
  (hasPrefixStr_iff s s).mpr (List.prefix_refl _)

theorem hasPrefixStr_trans {a b c : String} (h1 : hasPrefixStr b a = true)
    (h2 : hasPrefixStr c b = true) : hasPrefixStr c a = true :=
  (hasPrefixStr_iff c a).mpr
    (((hasPrefixStr_iff b a).mp h1).trans ((hasPrefixStr_iff c b).mp h2))

theorem hasPrefixStr_append (p t : String) : hasPrefixStr (p ++ t) p = true := by
  rw [hasPrefixStr_iff, String.data_append]
  exact List.prefix_append _ _

mutual

theorem walkVisit_source : ∀ (n : FsNode) (p q : String) (b : Bool),
    (q, b) ∈ walkVisit p n → hasPrefixStr q p = true
  | .file _, p, q, b, h => by
    rw [walkVisit, List.mem_singleton, Prod.mk.injEq] at h
    rw [h.1]
    exact hasPrefixStr_self p
  | .dir es, p, q, b, h => by
    rw [walkVisit, List.mem_cons] at h
    rcases h with h | h
    · rw [Prod.mk.injEq] at h
      rw [h.1]
      exact hasPrefixStr_self p
    · exact walkVisitEntries_source es p q b h

theorem walkVisitEntries_source : ∀ (es : FsEntries) (p q : String) (b : Bool),
    (q, b) ∈ walkVisitEntries p es → hasPrefixStr q p = true
  | .nil, p, q, b, h => by rw [walkVisitEntries] at h; exact absurd h (List.not_mem_nil _)
  | .cons name child rest, p, q, b, h => by
    rw [walkVisitEntries, List.mem_append] at h
    rcases h with h | h
    · have h1 := walkVisit_source child (p ++ "/" ++ name) q b h
      have h2 : hasPrefixStr (p ++ "/" ++ name) p = true := by
        rw [String.append_assoc]
        exact hasPrefixStr_append p ("/" ++ name)
      exact hasPrefixStr_trans h2 h1
    · exact walkVisitEntries_source rest p q b h

end

theorem mountApplyPaths_visit (source : String) (n : FsNode) (q : String)
    (h : q ∈ mountApplyPaths source n) : (q, false) ∈ walkVisit source n := by
  cases n with
  | file stat =>
    rw [mountApplyPaths, List.mem_singleton] at h
    rw [h, walkVisit]
    exact List.mem_singleton.mpr rfl
  | dir es =>
    rw [mountApplyPaths, List.mem_map] at h
    obtain ⟨⟨v1, v2⟩, hv, hq⟩ := h
    rw [List.mem_filter] at hv
    have h2 : v2 = false := by
      have hb := hv.2
      cases v2 with
      | false => rfl
      | true => simp at hb
    subst h2
    have hq1 : v1 = q := hq
    subst hq1
    exact hv.1

theorem mountApplyPaths_source (source : String) (n : FsNode) (q : String)
    (h : q ∈ mountApplyPaths source n) : hasPrefixStr q source = true :=
  walkVisit_source n source q false (mountApplyPaths_visit source n q h)

/-- Characterisation of every `applied` event of the mount loop: it can only
arise after a successful `GetDeviceCGroupMountPath` call, its cgroup path is
the returned pair joined under `rootPath`, and its device path extends the
source of some `/dev`-prefixed mount of the list. -/
theorem applied_mem_processMounts (env : ContainerEnv) (version : Nat) :
    ∀ (ms : List MountPoint) (dp cp : String),
      Event.applied dp cp ∈ processMounts env version ms →
      (∃ cg sy, env.getMountPath (env.cgroupNew version).1 "/" env.pid = .ok (cg, sy)
          ∧ cp = goPathJoin [rootPath, sy, cg])
      ∧ ∃ m ∈ ms, hasPrefixStr m.Source "/dev" = true
          ∧ hasPrefixStr dp m.Source = true := by
  intro ms
  induction ms with
  | nil => intro dp cp h; exact absurd h (List.not_mem_nil _)
  | cons m rest ih =>
    intro dp cp h
    rw [processMounts] at h
    by_cases hpre : hasPrefixStr m.Source "/dev" = true
    · rw [if_neg (by simp [hpre])] at h
      cases hg : env.getMountPath (env.cgroupNew version).1 "/" env.pid with
      | error e =>
        rw [hg] at h
        rw [List.mem_singleton] at h
        exact absurd h (by simp)
      | ok pr =>
        obtain ⟨cg, sy⟩ := pr
        rw [hg] at h
        cases hs : env.statTree m.Source with
        | none =>
          rw [hs, List.mem_cons] at h
          rcases h with h | h
          · exact absurd h (by simp)
          · obtain ⟨⟨cg', sy', hEq, hcp⟩, m', hm', h3⟩ := ih dp cp h
            rw [hg] at hEq
            exact ⟨⟨cg', sy', hEq, hcp⟩, m', List.mem_cons_of_mem m hm', h3⟩
        | some node =>
          rw [hs, List.mem_append] at h
          rcases h with h | h
          · rw [List.mem_map] at h
            obtain ⟨q, hq, he⟩ := h
            have hdp : q = dp := by
              have := congrArg (fun e => match e with
                | Event.applied d _ => d
                | _ => "") he
              exact this
            have hcp : cp = goPathJoin [rootPath, sy, cg] := by
              have := congrArg (fun e => match e with
                | Event.applied _ c => c
                | _ => "") he
              exact this.symm
            subst hdp
            exact ⟨⟨cg, sy, rfl, hcp⟩,
              m, List.mem_cons_self m rest, hpre,
              mountApplyPaths_source m.Source node q hq⟩
          · obtain ⟨⟨cg', sy', hEq, hcp⟩, m', hm', h3⟩ := ih dp cp h
            rw [hg] at hEq
            exact ⟨⟨cg', sy', hEq, hcp⟩, m', List.mem_cons_of_mem m hm', h3⟩
    · rw [if_pos (by simp [hpre]), List.mem_cons] at h
      rcases h with h | h
      · exact absurd h (by simp)
      · obtain ⟨h1, m', hm', h3⟩ := ih dp cp h
        exact ⟨h1, m', List.mem_cons_of_mem m hm', h3⟩

/-! ## Claim C4 -/

/-- C4 counterexample: with two mounts and a failing
`GetDeviceCGroupMountPath`, the trace is not "log the error, then process the
remaining mounts" — the `break` at main.go:187 ends the mount loop, so the
`/data` mount of the same container is never even examined. -/
theorem C4_counterexample :
    processMounts envB 2 envB.mounts
      ≠ Event.cgroupPathError "eperm"
          :: processMounts envB 2 [{ Source := "/data", Destination := "/data" }] := by
  decide

/-- C4 amended: a cgroup path-resolution failure on a device mount is logged
and aborts that container's remaining mounts (the loop `break`s), while the
outer per-container batch still proceeds: a container whose inspection
succeeds never panics, so the next containers are processed regardless of its
per-mount failures. -/
theorem C4_amended_break_on_path_error :
    (∀ (env : ContainerEnv) (version : Nat) (m : MountPoint)
        (rest : List MountPoint) (e : String),
        hasPrefixStr m.Source "/dev" = true →
        env.getMountPath (env.cgroupNew version).1 "/" env.pid = .error e →
        processMounts env version (m :: rest) = [Event.cgroupPathError e])
    ∧ ∀ (env : ContainerEnv) (rest : List ContainerEnv),
        env.inspectOk = true →
        checkExistingContainers (env :: rest)
          = (containerEvents env :: (checkExistingContainers rest).1,
             (checkExistingContainers rest).2) := by
  constructor
  · intro env version m rest e h1 h2
    rw [processMounts, if_neg (by simp [h1]), h2]
  · intro env rest h
    simp [checkExistingContainers, processContainer, h]

/-- C4 witness: the two-mount container with the failing path resolution
produces exactly the one error event, and the batch continues past it. -/
theorem C4_witness :
    processMounts envB 2
        [{ Source := "/dev/tty0", Destination := "/dev/tty0" },
         { Source := "/data", Destination := "/data" }]
      = [Event.cgroupPathError "eperm"]
    ∧ checkExistingContainers [envB]
        = (containerEvents envB :: (checkExistingContainers []).1,
           (checkExistingContainers []).2) :=
  ⟨C4_amended_break_on_path_error.1 envB 2
      { Source := "/dev/tty0", Destination := "/dev/tty0" }
      [{ Source := "/data", Destination := "/data" }] "eperm" (by decide) rfl,
   C4_amended_break_on_path_error.2 envB [] rfl⟩

/-! ## Claim C6 -/

/-- C6 counterexample: the mount source `/devices/input0` does not lie under
the `/dev` directory, yet it is passed to the resolver/applier pipeline,
because main.go:177 tests the raw string prefix `/dev`. -/
theorem C6_counterexample :
    liesUnderDev "/devices/input0" = false
    ∧ Event.applied "/devices/input0"
        "/host/sys/fs/cgroup/system.slice/docker-abc.scope"
        ∈ containerEvents envC := by decide

/-- C6 amended: a mount whose source does not begin with the string `/dev` is
skipped (never passed to the pipeline), and conversely every path handed to
the pipeline extends the source of some mount that does begin with the string
`/dev`. -/
theorem C6_amended_string_prefix_gate :
    (∀ (env : ContainerEnv) (version : Nat) (m : MountPoint)
        (rest : List MountPoint),
        hasPrefixStr m.Source "/dev" = false →
        processMounts env version (m :: rest)
          = Event.skippedNonDevice m.Source :: processMounts env version rest)
    ∧ ∀ (env : ContainerEnv) (version : Nat) (ms : List MountPoint)
        (dp cp : String),
        Event.applied dp cp ∈ processMounts env version ms →
        ∃ m ∈ ms, hasPrefixStr m.Source "/dev" = true
          ∧ hasPrefixStr dp m.Source = true := by
  constructor
  · intro env version m rest h
    rw [processMounts, if_pos (by simp [h])]
  · intro env version ms dp cp h
    exact (applied_mem_processMounts env version ms dp cp h).2

/-- C6 witness: a `/data` mount is skipped with only the skip event. -/
theorem C6_witness :
    processMounts envA 2 [{ Source := "/data", Destination := "/data" }]
      = Event.skippedNonDevice "/data" :: processMounts envA 2 [] :=
  C6_amended_string_prefix_gate.1 envA 2
    { Source := "/data", Destination := "/data" } [] (by decide)

/-! ## Claim C7 -/

/-- C7 counterexample: a live start event whose container inspection fails
terminates the daemon (the panic at main.go:157), dropping the rest of the
stream — the later, healthy start event is never processed. -/
theorem C7_counterexample :
    listenForMounts [StreamItem.startEvent envD, StreamItem.startEvent envA]
      = ([], true) := by decide

/-- C7 amended: an inspect failure is fatal both for a single live event and
during the bulk scan, and an error on the event stream is fatal as well —
the daemon never drops-and-continues. -/
theorem C7_amended_inspect_failure_fatal :
    (∀ (env : ContainerEnv) (rest : List StreamItem), env.inspectOk = false →
        listenForMounts (StreamItem.startEvent env :: rest) = ([], true))
    ∧ (∀ (e : String) (rest : List StreamItem),
        listenForMounts (StreamItem.streamErr e :: rest) = ([], true))
    ∧ ∀ (env : ContainerEnv) (rest : List ContainerEnv), env.inspectOk = false →
        checkExistingContainers (env :: rest) = ([], true) := by
  refine ⟨?_, ?_, ?_⟩
  · intro env rest h
    simp [listenForMounts, processContainer, h]
  · intro e rest
    rfl
  · intro env rest h
    simp [checkExistingContainers, processContainer, h]

/-- C7 witness: the daemon dies on an inspect failure and on a stream
error. -/
theorem C7_witness :
    listenForMounts [StreamItem.startEvent envD] = ([], true)
    ∧ listenForMounts [StreamItem.streamErr "eof"] = ([], true) :=
  ⟨C7_amended_inspect_failure_fatal.1 envD [] rfl,
   C7_amended_inspect_failure_fatal.2.1 "eof" []⟩

/-! ## Claim C10 -/

/-- C10: the error returned by `cgroup.New` is discarded (shadowed by the next
assignment at main.go:183), so the mount loop's behaviour is a function of the
backend value alone — replacing the error component of `cgroup.New`'s result
by anything at all leaves the trace unchanged, and the backend value is used
unconditionally either way. -/
theorem C10_new_error_discarded (env : ContainerEnv) (f : Nat → Option String)
    (version : Nat) (ms : List MountPoint) :
    processMounts { env with cgroupNew := fun v => ((env.cgroupNew v).1, f v) }
        version ms
      = processMounts env version ms := by
  induction ms with
  | nil => rfl
  | cons m rest ih => simp only [processMounts, ih]

/-! ## Claim C5 -/

/-- C5 counterexample: the path handed to device-file resolution (the
`unix.Stat` inside `applyDeviceRules`) for the mount of `/dev/tty0` is
`/dev/tty0` itself, which is not under the configured host-root prefix
`/host` — main.go stats `mount.Source` without rewriting it. -/
theorem C5_counterexample :
    Event.applied "/dev/tty0" "/host/sys/fs/cgroup/system.slice/docker-abc.scope"
        ∈ containerEvents envA
    ∧ hasPrefixStr "/dev/tty0" rootPath = false := by decide

/-- C5 amended: only cgroup path resolution's result is rewritten under the
host-root prefix — every applied rule's cgroup path is
`path.Join(rootPath, sysfsPath, cgroupPath)` over the resolver's returned pair
— while the device path handed to the stat is the mount's source path (or a
walk path extending it) unmodified. -/
theorem C5_amended_prefix_only_cgroup_path (env : ContainerEnv) (version : Nat)
    (ms : List MountPoint) (cg sy dp cp : String)
    (hres : env.getMountPath (env.cgroupNew version).1 "/" env.pid = .ok (cg, sy))
    (h : Event.applied dp cp ∈ processMounts env version ms) :
    cp = goPathJoin [rootPath, sy, cg]
    ∧ ∃ m ∈ ms, hasPrefixStr dp m.Source = true := by
  obtain ⟨⟨cg', sy', hEq, hcp⟩, m', hm', _, hdp⟩ :=
    applied_mem_processMounts env version ms dp cp h
  rw [hres] at hEq
  injection hEq with hEq2
  have hcg : cg = cg' := congrArg Prod.fst hEq2
  have hsy : sy = sy' := congrArg Prod.snd hEq2
  subst hcg
  subst hsy
  exact ⟨hcp, m', hm', hdp⟩

/-- C5 witness: for the `/dev/tty0` container the applied cgroup path is the
join of the resolver's pair under `/host`, and the device path extends the
mount source. -/
theorem C5_witness :
    "/host/sys/fs/cgroup/system.slice/docker-abc.scope"
        = goPathJoin [rootPath, "/sys/fs/cgroup", "/system.slice/docker-abc.scope"]
    ∧ ∃ m ∈ envA.mounts, hasPrefixStr "/dev/tty0" m.Source = true :=
  C5_amended_prefix_only_cgroup_path envA 2 envA.mounts
    "/system.slice/docker-abc.scope" "/sys/fs/cgroup" "/dev/tty0"
    "/host/sys/fs/cgroup/system.slice/docker-abc.scope" rfl (by decide)

/-! ## Claim C8 -/

theorem count_filter_map (l : List (String × Bool)) (q : String) :
    ((l.filter fun v => !v.2).map Prod.fst).count q = l.count (q, false) := by
  induction l with
  | nil => rfl
  | cons a t ih =>
    obtain ⟨a1, a2⟩ := a
    cases a2 with
    | false =>
      rw [List.filter_cons_of_pos (by rfl), List.map_cons, List.count_cons,
        List.count_cons, ih]
      congr 1
      by_cases hq : a1 = q
      · simp [hq]
      · simp [hq]
    | true =>
      rw [List.filter_cons_of_neg (by simp), List.count_cons, ih]
      simp

/-- C8: for a directory mount source, the pipeline is entered exactly once per
non-directory file discovered by the walk (the applied-path multiset equals
the non-directory visit multiset), a non-directory source is handed over
directly exactly once, and only paths visited as non-directories ever reach
the pipeline (directories never do). -/
theorem C8_walk_applies_per_file (source : String) (es : FsEntries)
    (stat : Stat_t) (q : String) :
    (mountApplyPaths source (FsNode.dir es)).count q
        = (walkVisit source (FsNode.dir es)).count (q, false)
    ∧ mountApplyPaths source (FsNode.file stat) = [source]
    ∧ ∀ n : FsNode, q ∈ mountApplyPaths source n → (q, false) ∈ walkVisit source n := by
  refine ⟨?_, rfl, ?_⟩
  · exact count_filter_map _ q
  · intro n h
    exact mountApplyPaths_visit source n q h

/-- C8 witness: in the `/dev/dri`-like tree, `card0` is applied exactly as
often as it is discovered as a non-directory, and is indeed discovered. -/
theorem C8_witness :
    (mountApplyPaths "/dev/dri" driTree).count "/dev/dri/card0"
        = (walkVisit "/dev/dri" driTree).count ("/dev/dri/card0", false)
    ∧ ("/dev/dri/card0", false) ∈ walkVisit "/dev/dri" driTree :=
  ⟨(C8_walk_applies_per_file "/dev/dri" driEntries ttyStat "/dev/dri/card0").1,
   (C8_walk_applies_per_file "/dev/dri" driEntries ttyStat "/dev/dri/card0").2.2
      driTree (by decide)⟩

end DMM
